import Mathlib

/-!
Verification of the `oneOf` combinator and `discriminator` keyword of the
jsonschema-rs fork, shallowly embedded from
`src/jsonschema/src/keywords/one_of.rs` and
`src/jsonschema/src/keywords/discriminator.rs`.

JSON values are modelled by `JValue`; compiled validator nodes for
sub-schemas (external to the two source files) are modelled abstractly as
records of their three checking functions; Rust control flow that may
`panic!`-style abort (the `expect`/`unreachable` calls in the source) is made
explicit with the `Outcome` type, whose `panicked` constructor records an
abort with its message.
-/

/-- JSON-like values, as in `serde_json::Value` (numbers simplified to `Int`;
no claim depends on numeric representation). Objects are association lists
with the key-uniqueness of `serde_json::Map` assumed where relevant. -/
inductive JValue where
  | null : JValue
  | bool : Bool → JValue
  | num : Int → JValue
  | str : String → JValue
  | arr : List JValue → JValue
  | obj : List (String × JValue) → JValue

/-- Association-list lookup, modelling `serde_json::Map::get` and
`HashMap::get`: the first binding of the key wins. -/
def alookup {α : Type} (key : String) : List (String × α) → Option α
  | [] => none
  | (k, v) :: rest => if k = key then some v else alookup key rest

/-- `serde_json::Value::get(&str)`: member lookup on objects, `None` on every
non-object value. -/
def JValue.get : JValue → String → Option JValue
  | .obj fields, key => alookup key fields
  | _, _ => none

/-- `serde_json::Value::as_str`. -/
def JValue.as_str : JValue → Option String
  | .str s => some s
  | _ => none

/-- One chunk of a JSON pointer (`paths.rs` path segments). -/
inductive PathChunk where
  | prop : String → PathChunk
  | idx : Nat → PathChunk

/-- The JSON primitive types used by `single_type_error` in the two files. -/
inductive PrimitiveType where
  | array : PrimitiveType
  | object : PrimitiveType
  | string : PrimitiveType
  | number : PrimitiveType

/-- `ValidationError`, restricted to the kinds produced by the two source
files; errors of other keywords are opaque (`sub`). The two pointer arguments
are the schema path and the instance path, in the order the source
constructors take them. -/
inductive VError where
  | typeMismatch : List PathChunk → List PathChunk → JValue → PrimitiveType → VError
  | oneOfNotValid : List PathChunk → List PathChunk → JValue → VError
  | oneOfMultipleValid : List PathChunk → List PathChunk → JValue → VError
  | sub : Nat → VError

/-- Modelled from the spec: the structured output (`BasicOutput`) of a node is
`Valid(annotations)` or `Invalid(error_list)`; the detail payloads are opaque
here. -/
inductive BasicOutput where
  | valid : List String → BasicOutput
  | invalid : List String → BasicOutput

/-- Modelled from the spec: the associative "sum" operation merging sibling
branch outputs — any invalid operand makes the sum invalid and error lists
concatenate. -/
def BasicOutput.add : BasicOutput → BasicOutput → BasicOutput
  | .valid a, .valid b => .valid (a ++ b)
  | .valid _, .invalid e => .invalid e
  | .invalid e, .valid _ => .invalid e
  | .invalid e, .invalid f => .invalid (e ++ f)

/-- `PartialApplication`, the combinator-level structured-output value. -/
inductive AppOutput where
  | valid : List String → AppOutput
  | invalid : List String → AppOutput

/-- The `From<BasicOutput>` conversion into the combinator output. -/
def BasicOutput.toApp : BasicOutput → AppOutput
  | .valid a => AppOutput.valid a
  | .invalid e => AppOutput.invalid e

/-- Modelled from the spec: a compiled validator node (`SchemaNode`, external
to the two source files) is used only through its three checking operations;
it is embedded as a record of those operations. -/
structure SchemaNode where
  is_valid : JValue → Bool
  validate : JValue → List PathChunk → List VError
  apply_rooted : JValue → List PathChunk → BasicOutput

/-- Result of running a piece of Rust code that can return a value, return an
error value, or abort via `expect`/`unreachable!`; `panicked` records the
abort message. -/
inductive Outcome (α : Type) where
  | ok : α → Outcome α
  | err : VError → Outcome α
  | panicked : String → Outcome α

/-- Modelled from the spec: the compilation context, reduced to the
collaborator capabilities the two source files consume — the accumulated
schema path, the resolver's answer for the `#/discriminator` fragment
(`none` models `resolve_fragment` returning `Err`), the generic sub-schema
compiler `compile_validators`, and the `$ref` compiler `ref_::compile`. -/
structure CompilationContext where
  path : List PathChunk
  resolveDiscriminator : Option JValue
  compileValidators : JValue → Except VError SchemaNode
  compileRef : String → Option (Except VError SchemaNode)

/-- The compiled `oneOf` combinator (`OneOfValidator`), with the two hash maps
modelled as association lists (`alookup` gives `HashMap::get`; insertion is
cons-to-front, which shadows like `HashMap::insert`). -/
structure OneOfValidator where
  schemas : List SchemaNode
  schema_path : List PathChunk
  discriminated_schemas : List (String × Nat)
  discriminated_mapping : List (String × String)
  discriminator_property_name : Option String

/-- The `discriminated_mapping` collection loop of `OneOfValidator::compile`
(lines 49–53): each mapping value must be a string, else the iterator's
`expect("ok")` aborts. -/
def collectMapping : List (String × JValue) → Outcome (List (String × String))
  | [] => .ok []
  | (k, v) :: rest =>
    match v.as_str with
    | none => .panicked "ok"
    | some s =>
      match collectMapping rest with
      | .ok m => .ok ((k, s) :: m)
      | .err e => .err e
      | .panicked msg => .panicked msg

/-- The discriminator-metadata block of `OneOfValidator::compile`
(lines 40–54): `propertyName` is optional but aborts when non-string
(`expect("learn to handle this")`); `mapping` must be present
(`expect("test")`), and a present non-object mapping silently leaves the
mapping empty. -/
def resolveDiscriminatorMeta (disc : JValue) : Outcome (Option String × List (String × String)) :=
  match (match disc.get "propertyName" with
         | none => Outcome.ok none
         | some pv =>
           match pv.as_str with
           | none => Outcome.panicked "learn to handle this"
           | some s => Outcome.ok (some s)) with
  | .panicked m => .panicked m
  | .err e => .err e
  | .ok pn =>
    match disc.get "mapping" with
    | none => .panicked "test"
    | some m =>
      match m with
      | .obj fields =>
        match collectMapping fields with
        | .panicked msg => .panicked msg
        | .err e => .err e
        | .ok mp => .ok (pn, mp)
      | _ => .ok (pn, [])

/-- The alternatives loop of `OneOfValidator::compile` (lines 56–67):
compile every element (errors propagate via `?`), and when a discriminator
propertyName was resolved, record `reference → index` for every element that
has a `"$ref"` member (aborting via `expect("bah")` when its value is not a
string). -/
def compileAlternatives (cv : JValue → Except VError SchemaNode) (hasDisc : Bool) :
    List JValue → Nat → List SchemaNode → List (String × Nat) →
    Outcome (List SchemaNode × List (String × Nat))
  | [], _, schemas, dmap => .ok (schemas, dmap)
  | item :: rest, i, schemas, dmap =>
    match cv item with
    | .error e => .err e
    | .ok node =>
      if hasDisc then
        match item.get "$ref" with
        | none => compileAlternatives cv hasDisc rest (i + 1) (schemas ++ [node]) dmap
        | some r =>
          match r.as_str with
          | none => .panicked "bah"
          | some s =>
            compileAlternatives cv hasDisc rest (i + 1) (schemas ++ [node]) ((s, i) :: dmap)
      else compileAlternatives cv hasDisc rest (i + 1) (schemas ++ [node]) dmap

/-- `OneOfValidator::compile` (lines 25–84). -/
def OneOfValidator.compile (schema : JValue) (ctx : CompilationContext) :
    Outcome OneOfValidator :=
  match schema with
  | .arr items =>
    match (match ctx.resolveDiscriminator with
           | some disc => resolveDiscriminatorMeta disc
           | none => Outcome.ok (none, [])) with
    | .panicked m => .panicked m
    | .err e => .err e
    | .ok (pn, dmapping) =>
      match compileAlternatives ctx.compileValidators pn.isSome items 0 [] [] with
      | .panicked m => .panicked m
      | .err e => .err e
      | .ok (schemas, dschemas) =>
        .ok { schemas := schemas,
              schema_path := ctx.path ++ [PathChunk.prop "oneOf"],
              discriminated_schemas := dschemas,
              discriminated_mapping := dmapping,
              discriminator_property_name := pn }
  | _ => .err (VError.typeMismatch [] ctx.path schema PrimitiveType.array)

/-- The pure dispatch chain of `OneOfValidator::get_discriminated_valid`
(lines 91–96): property name → instance tag → string → mapping entry →
dispatch-index entry; any missing link yields `none` (the `?` operators in the
source). The `println!` debug output of the source has no value semantics. -/
def OneOfValidator.dispatchIndex (v : OneOfValidator) (inst : JValue) : Option Nat :=
  match v.discriminator_property_name with
  | none => none
  | some pn =>
    match inst.get pn with
    | none => none
    | some tag =>
      match tag.as_str with
      | none => none
      | some s =>
        match alookup s v.discriminated_mapping with
        | none => none
        | some r => alookup r v.discriminated_schemas

/-- `OneOfValidator::get_discriminated_valid` (lines 86–103): when the chain
dispatches, index into `schemas` (a Rust index panic when out of range) and
return that node's error sequence. -/
def OneOfValidator.get_discriminated_valid (v : OneOfValidator) (inst : JValue)
    (ipath : List PathChunk) : Option (Outcome (List VError)) :=
  match v.dispatchIndex inst with
  | none => none
  | some i =>
    match v.schemas[i]? with
    | none => some (.panicked "index out of bounds")
    | some node => some (.ok (node.validate inst ipath))

/-- The loop of `OneOfValidator::get_first_valid` (lines 105–114), returning
the index of the first alternative whose `is_valid` holds. -/
def firstIdxFrom {α : Type} (p : α → Bool) : List α → Nat → Option Nat
  | [], _ => none
  | x :: xs, k => if p x then some k else firstIdxFrom p xs (k + 1)

/-- `OneOfValidator::get_first_valid`. -/
def OneOfValidator.get_first_valid (v : OneOfValidator) (inst : JValue) : Option Nat :=
  firstIdxFrom (fun n => n.is_valid inst) v.schemas 0

/-- `OneOfValidator::are_others_valid` (lines 117–125): any alternative after
`idx` is valid. -/
def OneOfValidator.are_others_valid (v : OneOfValidator) (inst : JValue) (idx : Nat) : Bool :=
  (v.schemas.drop (idx + 1)).any (fun n => n.is_valid inst)

/-- `OneOfValidator::is_valid` (lines 129–132). -/
def OneOfValidator.is_valid (v : OneOfValidator) (inst : JValue) : Bool :=
  match v.get_first_valid inst with
  | none => false
  | some idx => !(v.are_others_valid inst idx)

/-- The exhaustive branch of `OneOfValidator::validate` (lines 142–158). -/
def OneOfValidator.exhaustiveValidate (v : OneOfValidator) (inst : JValue)
    (ipath : List PathChunk) : Outcome (List VError) :=
  match v.get_first_valid inst with
  | some idx =>
    if v.are_others_valid inst idx then
      .ok [VError.oneOfMultipleValid v.schema_path ipath inst]
    else
      .ok []
  | none => .ok [VError.oneOfNotValid v.schema_path ipath inst]

/-- `OneOfValidator::validate` (lines 133–159): try the discriminator fast
path, else the exhaustive path. -/
def OneOfValidator.validate (v : OneOfValidator) (inst : JValue)
    (ipath : List PathChunk) : Outcome (List VError) :=
  match v.get_discriminated_valid inst ipath with
  | some r => r
  | none => v.exhaustiveValidate inst ipath

/-- The success/failure partition of `OneOfValidator::apply` (lines 165–172),
in source order. -/
def splitOutputs : List BasicOutput → List BasicOutput × List BasicOutput
  | [] => ([], [])
  | o :: rest =>
    let (s, f) := splitOutputs rest
    match o with
    | .valid a => (BasicOutput.valid a :: s, f)
    | .invalid e => (s, BasicOutput.invalid e :: f)

/-- `OneOfValidator::apply` (lines 160–183); the zero-alternatives case is the
source's `unreachable!`. -/
def OneOfValidator.apply (v : OneOfValidator) (inst : JValue)
    (ipath : List PathChunk) : Outcome AppOutput :=
  match splitOutputs (v.schemas.map (fun n => n.apply_rooted inst ipath)) with
  | ([o], _) => .ok o.toApp
  | (_ :: _ :: _, _) => .ok (AppOutput.invalid ["more than one subschema succeeded"])
  | ([], f :: fs) => .ok (((f :: fs).foldl BasicOutput.add (BasicOutput.valid [])).toApp)
  | ([], []) => .panicked "compilation should fail for oneOf with no subschemas"

/-- The compiled standalone `discriminator` keyword
(`DiscriminatorValidator`, discriminator.rs lines 16–20). -/
structure DiscriminatorValidator where
  schema_path : List PathChunk
  property_name : String
  mapping : List (String × SchemaNode)

/-- `compile_mapping` (discriminator.rs lines 22–50): a mapping value must be
a string, and `ref_::compile` must succeed on it; the resulting single-keyword
`SchemaNode` wrapper behaves as the compiled `$ref` validator itself. -/
def compile_mapping (schema : JValue) (cr : String → Option (Except VError SchemaNode))
    (ctxPath : List PathChunk) : Except VError SchemaNode :=
  match schema with
  | .str s =>
    match cr s with
    | some (.ok validator) => .ok validator
    | _ => .error (VError.typeMismatch [] ctxPath schema PrimitiveType.string)
  | _ => .error (VError.typeMismatch [] ctxPath schema PrimitiveType.array)

/-- The mapping loop of `DiscriminatorValidator::compile` (lines 71–76):
compile every mapping value (errors propagate via `?`) and insert into the
hash map (cons-to-front shadows like `HashMap::insert`). -/
def compileMappingEntries (cr : String → Option (Except VError SchemaNode))
    (ctxPath : List PathChunk) :
    List (String × JValue) → List (String × SchemaNode) →
    Outcome (List (String × SchemaNode))
  | [], acc => .ok acc
  | (k, item) :: rest, acc =>
    match compile_mapping item cr ctxPath with
    | .error e => .err e
    | .ok node => compileMappingEntries cr ctxPath rest ((k, node) :: acc)

/-- `DiscriminatorValidator::compile` (lines 54–91): `propertyName` and
`mapping` are read with `expect`, aborting when missing or of the wrong type;
the item context path is `.../discriminator/test` as in the source's
`with_path("test")`. -/
def DiscriminatorValidator.compile (schema : JValue) (ctx : CompilationContext) :
    Outcome DiscriminatorValidator :=
  match schema with
  | .obj data =>
    match (match alookup "propertyName" data with
           | none => Outcome.panicked "Discriminator must define a propertyName"
           | some pv =>
             match pv.as_str with
             | none => Outcome.panicked "Discriminator propertyName must be a string"
             | some s => Outcome.ok s) with
    | .panicked m => .panicked m
    | .err e => .err e
    | .ok pname =>
      match (match alookup "mapping" data with
             | none => Outcome.panicked "Discriminator must define a mapping"
             | some m =>
               match m with
               | .obj fields => Outcome.ok fields
               | _ => Outcome.panicked "Discriminator mapping must be an object") with
      | .panicked m => .panicked m
      | .err e => .err e
      | .ok fields =>
        match compileMappingEntries ctx.compileRef
            (ctx.path ++ [PathChunk.prop "discriminator", PathChunk.prop "test"]) fields [] with
        | .panicked m => .panicked m
        | .err e => .err e
        | .ok mapping =>
          .ok { schema_path := ctx.path ++ [PathChunk.prop "discriminator"],
                property_name := pname,
                mapping := mapping }
  | _ => .err (VError.typeMismatch [] ctx.path schema PrimitiveType.array)

/-- `DiscriminatorValidator::get_discriminated_valid` (lines 93–112): a
missing property reports `OneOfNotValid`; a present property whose value is
not a string, or has no mapping entry, aborts via `expect`; a mapped value
delegates to the single target node. -/
def DiscriminatorValidator.get_discriminated_valid (d : DiscriminatorValidator)
    (inst : JValue) (ipath : List PathChunk) : Outcome (List VError) :=
  match inst.get d.property_name with
  | some tag =>
    match tag.as_str with
    | none => .panicked "schema should be a string"
    | some s =>
      match alookup s d.mapping with
      | none =>
        .panicked "Discriminator mapping must contain a schema for the given property name"
      | some node => .ok (node.validate inst ipath)
  | none => .ok [VError.oneOfNotValid d.schema_path ipath inst]

/-- `DiscriminatorValidator`'s `Validate::is_valid` (lines 116–118): the
source returns the constant `false`. -/
def DiscriminatorValidator.is_valid (_ : DiscriminatorValidator) (_ : JValue) : Bool :=
  false

/-- `DiscriminatorValidator`'s `Validate::validate` (lines 119–125). -/
def DiscriminatorValidator.validate (d : DiscriminatorValidator) (inst : JValue)
    (ipath : List PathChunk) : Outcome (List VError) :=
  d.get_discriminated_valid inst ipath

/-- `DiscriminatorValidator`'s `Validate::apply` (lines 126–132). -/
def DiscriminatorValidator.apply (_ : DiscriminatorValidator) (_ : JValue)
    (_ : List PathChunk) : AppOutput :=
  AppOutput.invalid ["unimplemented"]

/-- The keyword-factory `compile` of discriminator.rs (lines 144–176): a
failed `#/discriminator` resolution (keyword absent) is mapped to
`Some(Err(type error))`, and so is a compile error from
`DiscriminatorValidator::compile`; the factory never produces `None`. -/
def discriminatorFactory (schema : JValue) (ctx : CompilationContext) :
    Outcome (Option (Except VError DiscriminatorValidator)) :=
  match ctx.resolveDiscriminator with
  | none =>
    .ok (some (.error (VError.typeMismatch [] ctx.path schema PrimitiveType.array)))
  | some dsch =>
    match DiscriminatorValidator.compile dsch ctx with
    | .ok v => .ok (some (.ok v))
    | .err _ =>
      .ok (some (.error (VError.typeMismatch [] ctx.path schema PrimitiveType.array)))
    | .panicked m => .panicked m

lemma firstIdxFrom_eq_none {α : Type} (p : α → Bool) :
    ∀ (l : List α) (k : Nat), firstIdxFrom p l k = none ↔ l.countP p = 0 := by
  intro l
  induction l with
  | nil => intro k; simp [firstIdxFrom]
  | cons x xs ih =>
    intro k
    by_cases hp : p x
    · simp [firstIdxFrom, hp, List.countP_cons]
    · simp [firstIdxFrom, hp, List.countP_cons, ih]

lemma exhaustBool_spec {α : Type} (p : α → Bool) (s : List α) :
    ∀ (l : List α) (k : Nat), s.drop k = l →
    (match firstIdxFrom p l k with
     | none => false
     | some idx => !((s.drop (idx + 1)).any p)) = decide (l.countP p = 1) := by
  intro l
  induction l with
  | nil => intro k _; simp [firstIdxFrom]
  | cons x xs ih =>
    intro k h
    have hdrop : s.drop (k + 1) = xs := by
      have h1 : s.drop (k + 1) = (s.drop k).drop 1 := by
        rw [List.drop_drop, Nat.add_comm]
      rw [h1, h]
      rfl
    by_cases hp : p x
    · simp only [firstIdxFrom, hp, if_true, hdrop, List.countP_cons, if_pos]
      apply Bool.eq_iff_iff.mpr
      simp [List.any_eq_true, List.countP_eq_zero]
    · have := ih (k + 1) hdrop
      simp only [firstIdxFrom, hp, if_false, List.countP_cons]
      simpa [hp] using this

lemma is_valid_eq_countP (v : OneOfValidator) (inst : JValue) :
    v.is_valid inst = decide (v.schemas.countP (fun n => n.is_valid inst) = 1) := by
  have h := exhaustBool_spec (fun n => n.is_valid inst) v.schemas v.schemas 0 (by simp)
  exact h

lemma exhaustiveValidate_eq_countP (v : OneOfValidator) (inst : JValue)
    (ipath : List PathChunk) :
    v.exhaustiveValidate inst ipath =
      Outcome.ok
        (if v.schemas.countP (fun n => n.is_valid inst) = 1 then []
         else if v.schemas.countP (fun n => n.is_valid inst) = 0 then
           [VError.oneOfNotValid v.schema_path ipath inst]
         else [VError.oneOfMultipleValid v.schema_path ipath inst]) := by
  have hv := is_valid_eq_countP v inst
  cases h : v.get_first_valid inst with
  | none =>
    have h' : firstIdxFrom (fun n => n.is_valid inst) v.schemas 0 = none := h
    have h0 : v.schemas.countP (fun n => n.is_valid inst) = 0 :=
      (firstIdxFrom_eq_none (fun n => n.is_valid inst) v.schemas 0).mp h'
    simp [OneOfValidator.exhaustiveValidate, h, h0]
  | some idx =>
    have hne : v.schemas.countP (fun n => n.is_valid inst) ≠ 0 := by
      intro h0
      have := (firstIdxFrom_eq_none (fun n => n.is_valid inst) v.schemas 0).mpr h0
      rw [OneOfValidator.get_first_valid] at h
      rw [this] at h
      exact Option.noConfusion h
    have hb : (!(v.are_others_valid inst idx)) =
        decide (v.schemas.countP (fun n => n.is_valid inst) = 1) := by
      rw [← hv]
      simp [OneOfValidator.is_valid, h]
    cases ho : v.are_others_valid inst idx with
    | false =>
      have h1 : v.schemas.countP (fun n => n.is_valid inst) = 1 := by
        rw [ho] at hb
        exact of_decide_eq_true hb.symm
      simp [OneOfValidator.exhaustiveValidate, h, ho, h1]
    | true =>
      have h1 : v.schemas.countP (fun n => n.is_valid inst) ≠ 1 := by
        rw [ho] at hb
        intro hc
        rw [hc] at hb
        simp at hb
      simp [OneOfValidator.exhaustiveValidate, h, ho, h1, hne]

/-- C1: for every instance and every compiled `oneOf` combinator (in
particular those compiled without a discriminator), the boolean check
`is_valid` returns `true` iff exactly one alternative, checked independently
via its own `is_valid`, accepts the instance — zero passes and two or more
passes both yield `false` — and the verdict is independent of the order of
the alternatives. -/
theorem oneOf_isValid_exactly_one (v : OneOfValidator) (inst : JValue) :
    (v.is_valid inst = true ↔ v.schemas.countP (fun n => n.is_valid inst) = 1) ∧
    (∀ w : OneOfValidator, v.schemas.Perm w.schemas → v.is_valid inst = w.is_valid inst) := by
  constructor
  · rw [is_valid_eq_countP]
    simp
  · intro w hperm
    rw [is_valid_eq_countP, is_valid_eq_countP, hperm.countP_eq]

/-- A concrete alternative node accepting every instance. -/
def nodeAny : SchemaNode :=
  { is_valid := fun _ => true,
    validate := fun _ _ => [],
    apply_rooted := fun _ _ => BasicOutput.valid [] }

/-- A concrete alternative node rejecting every instance with one opaque
sub-error. -/
def nodeNone : SchemaNode :=
  { is_valid := fun _ => false,
    validate := fun _ _ => [VError.sub 0],
    apply_rooted := fun _ _ => BasicOutput.invalid ["sub"] }

def oneOfV1 : OneOfValidator :=
  { schemas := [nodeAny, nodeNone], schema_path := [PathChunk.prop "oneOf"],
    discriminated_schemas := [], discriminated_mapping := [],
    discriminator_property_name := none }

def oneOfW1 : OneOfValidator :=
  { schemas := [nodeNone, nodeAny], schema_path := [PathChunk.prop "oneOf"],
    discriminated_schemas := [], discriminated_mapping := [],
    discriminator_property_name := none }

theorem oneOf_isValid_exactly_one_witness :
    oneOfV1.is_valid JValue.null = oneOfW1.is_valid JValue.null :=
  (oneOf_isValid_exactly_one oneOfV1 JValue.null).2 oneOfW1
    (List.Perm.swap nodeNone nodeAny [])

/-- C5: whenever the discriminator fast path of the `oneOf` combinator cannot
dispatch — no descriptor, the instance lacks the property (in particular when
the instance is not an object, since member lookup then yields nothing), the
property value is not a string, the string has no mapping entry, or the
mapped reference has no dispatch-index entry — `validate` falls through to
the exhaustive path and produces the exact exactly-one verdict, and none of
the fall-through conditions is reported as an error. -/
theorem oneOf_fallthrough_exhaustive (v : OneOfValidator) (inst : JValue)
    (ipath : List PathChunk)
    (h : v.discriminator_property_name = none ∨
      ∃ pn, v.discriminator_property_name = some pn ∧
        (inst.get pn = none ∨
         ∃ tag, inst.get pn = some tag ∧
           (tag.as_str = none ∨
            ∃ s, tag.as_str = some s ∧
              (alookup s v.discriminated_mapping = none ∨
               ∃ r, alookup s v.discriminated_mapping = some r ∧
                    alookup r v.discriminated_schemas = none)))) :
    v.get_discriminated_valid inst ipath = none ∧
    v.validate inst ipath =
      Outcome.ok
        (if v.schemas.countP (fun n => n.is_valid inst) = 1 then []
         else if v.schemas.countP (fun n => n.is_valid inst) = 0 then
           [VError.oneOfNotValid v.schema_path ipath inst]
         else [VError.oneOfMultipleValid v.schema_path ipath inst]) := by
  have hdi : v.dispatchIndex inst = none := by
    rcases h with h | ⟨pn, hpn, h⟩
    · simp [OneOfValidator.dispatchIndex, h]
    · rcases h with h | ⟨tag, htag, h⟩
      · simp [OneOfValidator.dispatchIndex, hpn, h]
      · rcases h with h | ⟨s, hs, h⟩
        · simp [OneOfValidator.dispatchIndex, hpn, htag, h]
        · rcases h with h | ⟨r, hr, h⟩
          · simp [OneOfValidator.dispatchIndex, hpn, htag, hs, h]
          · simp [OneOfValidator.dispatchIndex, hpn, htag, hs, hr, h]
  have hgd : v.get_discriminated_valid inst ipath = none := by
    unfold OneOfValidator.get_discriminated_valid
    rw [hdi]
  refine ⟨hgd, ?_⟩
  have hv : v.validate inst ipath = v.exhaustiveValidate inst ipath := by
    unfold OneOfValidator.validate
    rw [hgd]
  rw [hv, exhaustiveValidate_eq_countP]

def oneOfV5 : OneOfValidator :=
  { schemas := [nodeNone], schema_path := [PathChunk.prop "oneOf"],
    discriminated_schemas := [], discriminated_mapping := [],
    discriminator_property_name := none }

theorem oneOf_fallthrough_exhaustive_witness :
    oneOfV5.validate JValue.null [] =
      Outcome.ok [VError.oneOfNotValid [PathChunk.prop "oneOf"] [] JValue.null] := by
  have h := (oneOf_fallthrough_exhaustive oneOfV5 JValue.null [] (Or.inl rfl)).2
  simpa [oneOfV5, nodeNone] using h

/-- C6: when the discriminator fast path dispatches instance `inst` to the
alternative at index `k`, `validate` returns exactly that alternative's
verdict; and when that alternative is valid (with an empty error sequence,
the node-level consistency contract) and is the only valid alternative, the
fast-path verdict coincides with the verdict of the exhaustive path. -/
theorem oneOf_fast_path_dispatch (v : OneOfValidator) (inst : JValue)
    (ipath : List PathChunk) (k : Nat) (node : SchemaNode)
    (hdi : v.dispatchIndex inst = some k)
    (hk : v.schemas[k]? = some node) :
    v.validate inst ipath = Outcome.ok (node.validate inst ipath) ∧
    (node.is_valid inst = true →
     node.validate inst ipath = [] →
     v.schemas.countP (fun n => n.is_valid inst) = 1 →
     v.validate inst ipath = v.exhaustiveValidate inst ipath) := by
  have hgd : v.get_discriminated_valid inst ipath =
      some (Outcome.ok (node.validate inst ipath)) := by
    simp [OneOfValidator.get_discriminated_valid, hdi, hk]
  have hval : v.validate inst ipath = Outcome.ok (node.validate inst ipath) := by
    unfold OneOfValidator.validate
    rw [hgd]
  refine ⟨hval, fun _hv hclean hcount => ?_⟩
  rw [hval, hclean, exhaustiveValidate_eq_countP, if_pos hcount]

def oneOfV6 : OneOfValidator :=
  { schemas := [nodeAny], schema_path := [PathChunk.prop "oneOf"],
    discriminated_schemas := [("#A", 0)], discriminated_mapping := [("a", "#A")],
    discriminator_property_name := some "kind" }

def inst6 : JValue := JValue.obj [("kind", JValue.str "a")]

theorem oneOf_fast_path_dispatch_witness :
    oneOfV6.validate inst6 [] = Outcome.ok [] ∧
    oneOfV6.validate inst6 [] = oneOfV6.exhaustiveValidate inst6 [] := by
  have h := oneOf_fast_path_dispatch oneOfV6 inst6 [] 0 nodeAny rfl rfl
  exact ⟨h.1, h.2 rfl rfl rfl⟩

/-- A standalone discriminator validator with property `kind` and the single
mapping entry `a ↦ nodeAny`. -/
def discKind : DiscriminatorValidator :=
  { schema_path := [PathChunk.prop "discriminator"], property_name := "kind",
    mapping := [("a", nodeAny)] }

/-- C2 (violated by the code): the standalone discriminator keyword's boolean
check is the constant `false` (discriminator.rs lines 116–118), so on the
instance `{"kind": "a"}` — which its error-producing check accepts with zero
errors — the two checks disagree. -/
theorem discriminator_boolean_error_disagree :
    discKind.is_valid (JValue.obj [("kind", JValue.str "a")]) = false ∧
    discKind.validate (JValue.obj [("kind", JValue.str "a")]) [] = Outcome.ok [] :=
  ⟨rfl, rfl⟩

/-- A context whose resolver yields a discriminator with `propertyName` but
no `mapping`. -/
def ctx3a : CompilationContext :=
  { path := [],
    resolveDiscriminator := some (JValue.obj [("propertyName", JValue.str "kind")]),
    compileValidators := fun _ => .ok nodeAny,
    compileRef := fun _ => none }

/-- A context whose resolver finds no discriminator fragment. -/
def ctxNoDisc : CompilationContext :=
  { path := [],
    resolveDiscriminator := none,
    compileValidators := fun _ => .ok nodeAny,
    compileRef := fun _ => none }

/-- A context whose resolver yields a discriminator with a non-string
`propertyName`. -/
def ctx3c : CompilationContext :=
  { path := [],
    resolveDiscriminator := some (JValue.obj [("propertyName", JValue.num 1)]),
    compileValidators := fun _ => .ok nodeAny,
    compileRef := fun _ => none }

/-- C3 (violated by the code): malformed discriminator payloads abort
compilation instead of returning a compile error value — a resolved
discriminator without `mapping` hits `expect("test")`, a non-string
`propertyName` hits `expect("learn to handle this")` in the `oneOf` compile
and the corresponding `expect` in the standalone keyword's compile. -/
theorem compile_panics_on_malformed_discriminator :
    OneOfValidator.compile (JValue.arr []) ctx3a = Outcome.panicked "test" ∧
    OneOfValidator.compile (JValue.arr []) ctx3c =
      Outcome.panicked "learn to handle this" ∧
    DiscriminatorValidator.compile (JValue.obj [("propertyName", JValue.num 1)]) ctxNoDisc =
      Outcome.panicked "Discriminator propertyName must be a string" ∧
    DiscriminatorValidator.compile (JValue.obj [("propertyName", JValue.str "kind")]) ctxNoDisc =
      Outcome.panicked "Discriminator must define a mapping" :=
  ⟨rfl, rfl, rfl, rfl⟩

/-- The combinator obtained by compiling `oneOf: []`. -/
def oneOfEmpty : OneOfValidator :=
  { schemas := [], schema_path := [PathChunk.prop "oneOf"],
    discriminated_schemas := [], discriminated_mapping := [],
    discriminator_property_name := none }

/-- C4 (violated by the code): the empty alternatives array is accepted by
`OneOfValidator::compile` (only non-arrays are rejected with the `Array` type
error), and the structured-output check of the resulting zero-alternative
combinator reaches the `unreachable!` abort at validation time. -/
theorem oneOf_empty_array_compiles_and_apply_panics :
    OneOfValidator.compile (JValue.arr []) ctxNoDisc = Outcome.ok oneOfEmpty ∧
    oneOfEmpty.apply JValue.null [] =
      Outcome.panicked "compilation should fail for oneOf with no subschemas" ∧
    OneOfValidator.compile (JValue.str "x") ctxNoDisc =
      Outcome.err (VError.typeMismatch [] [] (JValue.str "x") PrimitiveType.array) :=
  ⟨rfl, rfl, rfl⟩

/-- C7 (violated by the code): the standalone discriminator keyword reports
`OneOfNotValid` when the property is missing and delegates to the mapped node
when present and mapped, but a present tag with no mapping entry — and a
non-string tag — abort via `expect` instead of reporting an error. -/
theorem discriminator_unmapped_tag_panics :
    discKind.validate (JValue.obj []) [] =
      Outcome.ok [VError.oneOfNotValid [PathChunk.prop "discriminator"] [] (JValue.obj [])] ∧
    discKind.validate (JValue.obj [("kind", JValue.str "b")]) [] =
      Outcome.panicked
        "Discriminator mapping must contain a schema for the given property name" ∧
    discKind.validate (JValue.obj [("kind", JValue.num 1)]) [] =
      Outcome.panicked "schema should be a string" ∧
    discKind.validate (JValue.obj [("kind", JValue.str "a")]) [] = Outcome.ok [] :=
  ⟨rfl, rfl, rfl, rfl⟩

/-- C8 (violated by the code): when the resolver finds no discriminator
fragment (the keyword is absent), the keyword factory returns
`Some(Err(type error))` rather than `None` — despite the source comment that
absence "shouldn't exit on error"; the factory never produces `None`. -/
theorem discriminatorFactory_absent_not_none :
    discriminatorFactory (JValue.obj []) ctxNoDisc =
      Outcome.ok (some (Except.error
        (VError.typeMismatch [] [] (JValue.obj []) PrimitiveType.array))) ∧
    discriminatorFactory (JValue.obj []) ctxNoDisc ≠ Outcome.ok none := by
  refine ⟨rfl, fun h => ?_⟩
  exact Option.noConfusion (Outcome.ok.inj h)

/-- The `oneOf` combinator with alternatives `[nodeNone]` plus a discriminator
descriptor dispatching `kind = "a"` to index `0`. -/
def oneOfD10 : OneOfValidator :=
  { schemas := [nodeNone], schema_path := [PathChunk.prop "oneOf"],
    discriminated_schemas := [("#A", 0)], discriminated_mapping := [("a", "#A")],
    discriminator_property_name := some "kind" }

def inst10 : JValue := JValue.obj [("kind", JValue.str "a")]

/-- C10: `is_valid` and `apply` of the `oneOf` combinator never consult the
discriminator descriptor — two combinators with the same alternatives agree on
both checks whatever their discriminator fields — `is_valid` always computes
the exhaustive exactly-one verdict over the alternatives, while `validate`,
on the same alternatives, does change with the descriptor (the last two
conjuncts exhibit dispatch vs. exhaustive verdicts differing). -/
theorem oneOf_isValid_apply_ignore_discriminator (v w : OneOfValidator) (inst : JValue)
    (ipath : List PathChunk) (h : v.schemas = w.schemas) :
    v.is_valid inst = w.is_valid inst ∧
    v.apply inst ipath = w.apply inst ipath ∧
    (v.is_valid inst = true ↔ v.schemas.countP (fun n => n.is_valid inst) = 1) ∧
    oneOfD10.validate inst10 [] = Outcome.ok [VError.sub 0] ∧
    oneOfV5.validate inst10 [] =
      Outcome.ok [VError.oneOfNotValid [PathChunk.prop "oneOf"] [] inst10] := by
  refine ⟨?_, ?_, ?_, rfl, rfl⟩
  · rw [is_valid_eq_countP, is_valid_eq_countP, h]
  · unfold OneOfValidator.apply
    rw [h]
  · rw [is_valid_eq_countP]
    simp

theorem oneOf_isValid_apply_ignore_discriminator_witness :
    oneOfD10.is_valid inst10 = oneOfV5.is_valid inst10 ∧
    oneOfD10.apply inst10 [] = oneOfV5.apply inst10 [] := by
  have h := oneOf_isValid_apply_ignore_discriminator oneOfD10 oneOfV5 inst10 [] rfl
  exact ⟨h.1, h.2.1⟩

/-- An alternative whose body has a `$ref` member *and* a sibling keyword. -/
def item9 : JValue :=
  JValue.obj [("$ref", JValue.str "#A"), ("type", JValue.str "object")]

/-- A context resolving a well-formed discriminator
`{propertyName: "kind", mapping: {"a": "#A"}}`. -/
def ctx9 : CompilationContext :=
  { path := [],
    resolveDiscriminator := some (JValue.obj
      [("propertyName", JValue.str "kind"),
       ("mapping", JValue.obj [("a", JValue.str "#A")])]),
    compileValidators := fun _ => .ok nodeAny,
    compileRef := fun _ => none }

/-- The combinator that compiling `oneOf: [item9]` under `ctx9` produces. -/
def oneOfC9 : OneOfValidator :=
  { schemas := [nodeAny], schema_path := [PathChunk.prop "oneOf"],
    discriminated_schemas := [("#A", 0)], discriminated_mapping := [("a", "#A")],
    discriminator_property_name := some "kind" }

/-- C9 counterexample: the alternative `{"$ref": "#A", "type": "object"}` is
*not* a bare reference (it has the sibling member `type`, exhibited by the
second conjunct), yet compilation records `"#A" → 0` in the dispatch index —
refuting "recorded only when the sub-schema body is exactly a `$ref` reference
with no sibling keywords". -/
theorem oneOf_dispatch_records_ref_with_siblings :
    OneOfValidator.compile (JValue.arr [item9]) ctx9 = Outcome.ok oneOfC9 ∧
    item9.get "type" = some (JValue.str "object") :=
  ⟨rfl, rfl⟩

lemma as_str_some {v : JValue} {s : String} (h : v.as_str = some s) :
    v = JValue.str s := by
  cases v <;> simp_all [JValue.as_str]

lemma drop_eq_cons_getElem {α : Type} {full : List α} {k : Nat} {x : α} {rest : List α}
    (h : full.drop k = x :: rest) : full[k]? = some x := by
  have h0 : (full.drop k)[0]? = some x := by rw [h]; simp
  rw [List.getElem?_drop] at h0
  simpa using h0

lemma drop_eq_cons_tail {α : Type} {full : List α} {k : Nat} {x : α} {rest : List α}
    (h : full.drop k = x :: rest) : full.drop (k + 1) = rest := by
  have h1 : full.drop (k + 1) = (full.drop k).drop 1 := by
    rw [List.drop_drop, Nat.add_comm]
  rw [h1, h]
  rfl

lemma compileAlternatives_dispatch_inv (cv : JValue → Except VError SchemaNode)
    (hasDisc : Bool) (full : List JValue) :
    ∀ (rest : List JValue) (k : Nat) (schemas : List SchemaNode)
      (dmap : List (String × Nat)) (out : List SchemaNode × List (String × Nat)),
      full.drop k = rest →
      (∀ r i, alookup r dmap = some i →
        ∃ item, full[i]? = some item ∧ item.get "$ref" = some (JValue.str r)) →
      compileAlternatives cv hasDisc rest k schemas dmap = .ok out →
      (∀ r i, alookup r out.2 = some i →
        ∃ item, full[i]? = some item ∧ item.get "$ref" = some (JValue.str r)) := by
  intro rest
  induction rest with
  | nil =>
    intro k schemas dmap out _ hinv hc r i hl
    have hout : out = (schemas, dmap) := by
      simpa [compileAlternatives] using hc.symm
    rw [hout] at hl
    exact hinv r i hl
  | cons item rest ih =>
    intro k schemas dmap out hdrop hinv hc r i hl
    have hitem : full[k]? = some item := drop_eq_cons_getElem hdrop
    have htail : full.drop (k + 1) = rest := drop_eq_cons_tail hdrop
    unfold compileAlternatives at hc
    cases hcv : cv item with
    | error e => rw [hcv] at hc; simp at hc
    | ok node =>
      rw [hcv] at hc
      cases hd : hasDisc with
      | false =>
        subst hd
        simp only [Bool.false_eq_true, if_false] at hc
        exact ih (k + 1) (schemas ++ [node]) dmap out htail hinv hc r i hl
      | true =>
        subst hd
        simp only [if_true] at hc
        cases href : item.get "$ref" with
        | none =>
          simp only [href] at hc
          exact ih (k + 1) (schemas ++ [node]) dmap out htail hinv hc r i hl
        | some rv =>
          simp only [href] at hc
          cases hstr : rv.as_str with
          | none => simp only [hstr] at hc; simp at hc
          | some s =>
            simp only [hstr] at hc
            refine ih (k + 1) (schemas ++ [node]) ((s, k) :: dmap) out htail ?_ hc r i hl
            intro r' i' hl'
            by_cases hrs : s = r'
            · have hik : i' = k := by
                simp [alookup, hrs] at hl'
                omega
              subst hik
              subst hrs
              refine ⟨item, hitem, ?_⟩
              rw [href, as_str_some hstr]
            · have : alookup r' dmap = some i' := by
                simpa [alookup, hrs] using hl'
              exact hinv r' i' this

/-- C9 as amended: every entry `r → i` of the compiled dispatch index comes
from the alternative at index `i` having a `$ref` member whose value is the
string `r` — regardless of sibling keywords, and hence alternatives without a
`$ref` member are unreachable via discriminator dispatch. -/
theorem oneOf_dispatch_entries_from_ref (items : List JValue)
    (ctx : CompilationContext) (v : OneOfValidator) (r : String) (i : Nat)
    (hc : OneOfValidator.compile (JValue.arr items) ctx = Outcome.ok v)
    (hl : alookup r v.discriminated_schemas = some i) :
    ∃ item, items[i]? = some item ∧ item.get "$ref" = some (JValue.str r) := by
  unfold OneOfValidator.compile at hc
  generalize hres : (match ctx.resolveDiscriminator with
      | some disc => resolveDiscriminatorMeta disc
      | none => Outcome.ok (none, [])) = res at hc
  cases res with
  | err e => simp at hc
  | panicked m => simp at hc
  | ok pr =>
    obtain ⟨pn, dmapping⟩ := pr
    simp only [] at hc
    generalize hloop :
      compileAlternatives ctx.compileValidators pn.isSome items 0 [] [] = lres at hc
    cases lres with
    | err e => simp at hc
    | panicked m => simp at hc
    | ok out =>
      obtain ⟨schemas, dschemas⟩ := out
      simp only [] at hc
      have hv : v.discriminated_schemas = dschemas := by
        have := Outcome.ok.inj hc
        rw [← this]
      rw [hv] at hl
      exact compileAlternatives_dispatch_inv ctx.compileValidators pn.isSome items
        items 0 [] [] (schemas, dschemas) (by simp)
        (by intro r' i' h'; simp [alookup] at h') hloop r i hl

theorem oneOf_dispatch_entries_from_ref_witness :
    ∃ item, [item9][0]? = some item ∧ item.get "$ref" = some (JValue.str "#A") :=
  oneOf_dispatch_entries_from_ref [item9] ctx9 oneOfC9 "#A" 0 rfl rfl
